import Mathlib

/-!
# Verification of the boa-sdk-ts voting payload core

Shallow embedding of the `VoterCard` / `BallotData` record types of
boa-sdk-ts (serialization, deserialization, hash-input collection and
signature verification), together with proofs of the specified
properties.

Bytes are modelled as natural numbers below 256 inside `List Nat`; a
`SmartBuffer` being written to is modelled as the list of bytes written
so far, so a `writeBuffer` call is a list append.  Reading from a
`SmartBuffer` is modelled by the reader type `Rd`, which consumes a
prefix of the byte list and either returns a value together with the
unconsumed tail or signals one of the two error kinds of the layer.

The cryptographic hash and the public-key signature check are external
primitives of the SDK; operations that invoke them are parameterized by
those primitives.
-/

namespace BoaSdk

/-- `toLE w v` is the `w`-byte little-endian encoding of `v` (its low
`8 * w` bits), as written by the fixed-width buffer writers. -/
def toLE : Nat → Nat → List Nat
  | 0, _ => []
  | w + 1, v => v % 256 :: toLE w (v / 256)

/-- `fromLE bs` reads a little-endian byte list back as a natural number. -/
def fromLE : List Nat → Nat
  | [] => 0
  | b :: l => b + 256 * fromLE l

/-- The two error kinds of the deserialization layer: `UnderrunError`
when the buffer is exhausted mid-field, `FormatError` when the header
bytes are present but wrong. -/
inductive SdkError where
  | UnderrunError
  | FormatError
deriving DecidableEq

/-- A reader over a byte buffer: consumes a prefix of the input and
returns the parsed value together with the unconsumed tail, or fails. -/
def Rd (α : Type) : Type := List Nat → Except SdkError (α × List Nat)

/-- Reader returning `a` without consuming input. -/
def pureR {α : Type} (a : α) : Rd α := fun bs => .ok (a, bs)

/-- Reader sequencing: run `m`, feed its value to `f` on the remaining
bytes; an error propagates immediately (a thrown exception). -/
def bindR {α β : Type} (m : Rd α) (f : α → Rd β) : Rd β := fun bs =>
  match m bs with
  | .ok (a, rest) => f a rest
  | .error e => .error e

/-- Reader that throws `e`. -/
def failR {α : Type} (e : SdkError) : Rd α := fun _ => .error e

/-- Modelled from the spec: `Utils.readBuffer` (utils/Utils.ts, not under
src/) — "read exactly N bytes (failing on underrun)": returns the first
`n` bytes and the rest, or raises an underrun failure when fewer than
`n` bytes remain. -/
def readBuffer (n : Nat) : Rd (List Nat) := fun bs =>
  if n ≤ bs.length then .ok (bs.take n, bs.drop n) else .error .UnderrunError

/-- Modelled from the spec: the `VarInt` encoder (utils/VarInt.ts, not
under src/) — "a compact encoding for unsigned integers whose byte
length depends on magnitude", 64-bit safe: values below `0xFC` are one
byte; larger values are a marker byte (`0xFC`/`0xFD`/`0xFE`) followed by
a 2-, 4- or 8-byte little-endian payload. -/
def varintEncode (v : Nat) : List Nat :=
  if v < 0xFC then [v]
  else if v ≤ 0xFFFF then 0xFC :: toLE 2 v
  else if v ≤ 0xFFFFFFFF then 0xFD :: toLE 4 v
  else 0xFE :: toLE 8 v

/-- Modelled from the spec: the `VarInt` decoder (utils/VarInt.ts, not
under src/) — reads one byte; below `0xFC` it is the value, otherwise it
is a marker selecting a 2-, 4- or 8-byte little-endian payload; raises
an underrun failure on insufficient bytes. -/
def varintDecode : Rd Nat := fun bs =>
  match bs with
  | [] => .error .UnderrunError
  | b :: rest =>
      if b < 0xFC then .ok (b, rest)
      else
        let w := if b = 0xFC then 2 else if b = 0xFD then 4 else 8
        match readBuffer w rest with
        | .ok (payload, r) => .ok (fromLE payload, r)
        | .error e => .error e

/-- Modelled from the spec: `PublicKey` (common/KeyPair.ts, not under
src/) — a fixed-width 32-byte public-key byte container. -/
structure PublicKey where
  data : List Nat
deriving DecidableEq

/-- Modelled from the spec: `Utils.SIZE_OF_PUBLIC_KEY` — public keys are
32 bytes wide. -/
def SIZE_OF_PUBLIC_KEY : Nat := 32

/-- Modelled from the spec: `Signature` (common/Signature.ts, not under
src/) — a fixed-width 64-byte signature container. -/
structure Signature where
  data : List Nat
deriving DecidableEq

/-- Modelled from the spec: `Signature.Width` — signatures are 64 bytes
wide. -/
def Signature.Width : Nat := 64

/-- Modelled from the spec: `PublicKey.computeHash` (common/KeyPair.ts,
not under src/) — appends the raw 32 key bytes to the hash-input
stream. -/
def PublicKey.computeHash (k : PublicKey) (buffer : List Nat) : List Nat :=
  buffer ++ k.data

/-- Modelled from the spec: `Utils.writeJSBigIntLE` (utils/Utils.ts, not
under src/) — the fixed 8-byte little-endian encoding of an unsigned
64-bit integer used for hash inputs. -/
def writeJSBigIntLE (v : Nat) : List Nat := toLE 8 v

/-- `VoterCard` (part_000 lines 29–118): a validator's delegation of
voting authority to a one-time key.  `expires` is the unsigned 64-bit
Unix timestamp (`JSBI` in the source). -/
structure VoterCard where
  validator_address : PublicKey
  address : PublicKey
  expires : Nat
  signature : Signature
deriving DecidableEq

/-- The `VoterCard` constructor (part_000 lines 58–67): stores the
fields; when the optional signature argument is absent it stores a
zero-filled buffer of `Signature.Width` bytes. -/
def VoterCard.create (validator_address address : PublicKey) (expires : Nat)
    (signature : Option Signature) : VoterCard :=
  { validator_address := validator_address
    address := address
    expires := expires
    signature :=
      match signature with
      | some s => s
      | none => ⟨List.replicate Signature.Width 0⟩ }

/-- `VoterCard.computeHash` (part_000 lines 83–90): appends the
validator key's hash input, the one-time key's hash input, then
`expires` as 8 little-endian bytes. -/
def VoterCard.computeHash (c : VoterCard) (buffer : List Nat) : List Nat :=
  let buffer := c.validator_address.computeHash buffer
  let buffer := c.address.computeHash buffer
  buffer ++ writeJSBigIntLE c.expires

/-- `VoterCard.verify` (part_000 lines 73–77): hashes the card's own
hash-input stream (`hashFull`, common/Hash.ts, is modelled as an
arbitrary `hashFn` applied to the stream collected from an empty
buffer) and checks the stored signature against `validator_address`
with the external verification primitive `verifyKey`. -/
def VoterCard.verify (hashFn : List Nat → List Nat)
    (verifyKey : PublicKey → Signature → List Nat → Bool) (c : VoterCard) : Bool :=
  let voter_card_hash := hashFn (c.computeHash [])
  verifyKey c.validator_address c.signature voter_card_hash

/-- `VoterCard.serialize` (part_000 lines 96–102): raw validator key
bytes, raw one-time key bytes, `expires` as a VarInt, raw signature
bytes. -/
def VoterCard.serialize (c : VoterCard) (buffer : List Nat) : List Nat :=
  let buffer := buffer ++ c.validator_address.data
  let buffer := buffer ++ c.address.data
  let buffer := buffer ++ varintEncode c.expires
  buffer ++ c.signature.data

/-- `VoterCard.deserialize` (part_000 lines 109–117): 32 key bytes, 32
key bytes, a VarInt, 64 signature bytes, in that order. -/
def VoterCard.deserialize : Rd VoterCard :=
  bindR (readBuffer SIZE_OF_PUBLIC_KEY) fun va =>
  bindR (readBuffer SIZE_OF_PUBLIC_KEY) fun ad =>
  bindR varintDecode fun expires =>
  bindR (readBuffer Signature.Width) fun sg =>
  pureR (VoterCard.create ⟨va⟩ ⟨ad⟩ expires (some ⟨sg⟩))

/-- `BallotData` (part_000 lines 123–256): a cast vote.
`proposal_id` is represented by the UTF-8 bytes of the proposal-id
string (`Buffer.from(string)` and `Buffer.toString()` are mutually
inverse on the valid UTF-8 strings exchanged here, so the string field
is carried as its byte image); `ballot` is the opaque encrypted
payload. -/
structure BallotData where
  proposal_id : List Nat
  ballot : List Nat
  card : VoterCard
  sequence : Nat
  signature : Signature
deriving DecidableEq

/-- `BallotData.HEADER` (part_000 line 125): the bytes of the 8-character
ASCII literal "BALLOT  ". -/
def BallotData.HEADER : List Nat := [0x42, 0x41, 0x4C, 0x4C, 0x4F, 0x54, 0x20, 0x20]

/-- `BallotData.WIDTH` (part_000 line 127): documentary nominal size. -/
def BallotData.WIDTH : Nat := 266

/-- The `BallotData` constructor (part_000 lines 166–176): stores the
fields; a missing signature argument becomes a zero-filled
`Signature.Width`-byte signature. -/
def BallotData.create (proposal_id ballot : List Nat) (card : VoterCard)
    (sequence : Nat) (signature : Option Signature) : BallotData :=
  { proposal_id := proposal_id
    ballot := ballot
    card := card
    sequence := sequence
    signature :=
      match signature with
      | some s => s
      | none => ⟨List.replicate Signature.Width 0⟩ }

/-- `BallotData.computeHash` (part_000 lines 182–188): raw proposal-id
bytes, raw ballot bytes, the card's hash input, then `sequence` as a
fixed 4-byte little-endian integer (`writeUInt32LE`). -/
def BallotData.computeHash (b : BallotData) (buffer : List Nat) : List Nat :=
  let buffer := buffer ++ b.proposal_id
  let buffer := buffer ++ b.ballot
  let buffer := b.card.computeHash buffer
  buffer ++ toLE 4 b.sequence

/-- `BallotData.verify` (part_000 lines 194–198): hashes the ballot's
hash-input stream and checks the stored signature against
`card.address` (the one-time voting key) with the external
verification primitive. -/
def BallotData.verify (hashFn : List Nat → List Nat)
    (verifyKey : PublicKey → Signature → List Nat → Bool) (b : BallotData) : Bool :=
  let ballot_data_hash := hashFn (b.computeHash [])
  verifyKey b.card.address b.signature ballot_data_hash

/-- `BallotData.serialize` (part_000 lines 204–219): VarInt-prefixed
header literal, VarInt-prefixed proposal-id bytes, VarInt-prefixed
ballot bytes, the card's serialization, `sequence` as a VarInt, raw
signature bytes. -/
def BallotData.serialize (b : BallotData) (buffer : List Nat) : List Nat :=
  let temp := BallotData.HEADER
  let buffer := buffer ++ varintEncode temp.length
  let buffer := buffer ++ temp
  let temp := b.proposal_id
  let buffer := buffer ++ varintEncode temp.length
  let buffer := buffer ++ temp
  let buffer := buffer ++ varintEncode b.ballot.length
  let buffer := buffer ++ b.ballot
  let buffer := b.card.serialize buffer
  let buffer := buffer ++ varintEncode b.sequence
  buffer ++ b.signature.data

/-- `BallotData.deserialize` (part_000 lines 226–243): reads the
length-prefixed header block and throws ("This is not the expected data
type.", the layer's FormatError) unless it equals the header literal;
then length-prefixed proposal-id bytes, length-prefixed ballot bytes,
the embedded card, the VarInt sequence and 64 raw signature bytes. -/
def BallotData.deserialize : Rd BallotData :=
  bindR varintDecode fun length =>
  bindR (readBuffer length) fun header =>
  if header = BallotData.HEADER then
    bindR varintDecode fun lenPid =>
    bindR (readBuffer lenPid) fun proposal_id =>
    bindR varintDecode fun lenBallot =>
    bindR (readBuffer lenBallot) fun ballot =>
    bindR VoterCard.deserialize fun card =>
    bindR varintDecode fun sequence =>
    bindR (readBuffer Signature.Width) fun sg =>
    pureR (BallotData.create proposal_id ballot card sequence (some ⟨sg⟩))
  else failR .FormatError

/-- A `VoterCard` is well-formed when its containers have their fixed
widths and `expires` fits an unsigned 64-bit integer — exactly the
values representable by the TypeScript field types. -/
@[reducible] def VoterCard.wellFormed (c : VoterCard) : Prop :=
  c.validator_address.data.length = 32 ∧ c.address.data.length = 32 ∧
    c.expires < 2 ^ 64 ∧ c.signature.data.length = 64

/-- A `BallotData` is well-formed when its card is, its signature has
the fixed width, `sequence` fits an unsigned 32-bit integer and the
variable-width fields fit their VarInt length prefixes. -/
@[reducible] def BallotData.wellFormed (b : BallotData) : Prop :=
  b.card.wellFormed ∧ b.signature.data.length = 64 ∧
    b.sequence < 2 ^ 32 ∧ b.proposal_id.length < 2 ^ 64 ∧ b.ballot.length < 2 ^ 64

/-- The VoterCredential hash-input stream exactly as the spec words it
(spec.md §4.1): raw validator key bytes, raw one-time key bytes, then
`expires` as a fixed 8-byte little-endian unsigned integer. -/
def voterCredentialHashInputSpec (c : VoterCard) : List Nat :=
  c.validator_address.data ++ c.address.data ++ toLE 8 c.expires

/-- The BallotRecord hash-input stream exactly as the spec words it
(spec.md §4.2): raw proposal-id bytes, raw ballot bytes, the embedded
credential's own hash-input stream, then `sequence` as a fixed 4-byte
little-endian unsigned integer. -/
def ballotRecordHashInputSpec (b : BallotData) : List Nat :=
  b.proposal_id ++ b.ballot ++ voterCredentialHashInputSpec b.card ++ toLE 4 b.sequence

/-- `ParsesE r bs v`: the reader `r` parses exactly the byte block `bs`
to the value `v` — on `bs` followed by anything it returns `v` and the
trailing bytes untouched, and on every strict prefix of `bs` it raises
an underrun error. -/
def ParsesE {α : Type} (r : Rd α) (bs : List Nat) (v : α) : Prop :=
  (∀ rest, r (bs ++ rest) = .ok (v, rest)) ∧
    ∀ p, p <+: bs → p.length < bs.length → r p = .error .UnderrunError

/-- Reference-semantics counterpart of `BallotData`, for the ownership
claim only: in TypeScript an object-typed field holds a *reference*
into the heap, so the `card` field is rendered as an index `cardRef`
into a heap of `VoterCard` values (a `List VoterCard`). -/
structure BallotDataRef where
  proposal_id : List Nat
  ballot : List Nat
  cardRef : Nat
  sequence : Nat
  signature : Signature
deriving DecidableEq

/-- The `BallotData` constructor under reference semantics (part_000
line 170 is `this.card = card;`): the caller's credential reference is
stored unchanged — the referenced credential is not copied. -/
def BallotDataRef.create (proposal_id ballot : List Nat) (cardRef sequence : Nat)
    (signature : Option Signature) : BallotDataRef :=
  { proposal_id := proposal_id
    ballot := ballot
    cardRef := cardRef
    sequence := sequence
    signature :=
      match signature with
      | some s => s
      | none => ⟨List.replicate Signature.Width 0⟩ }

/-- A concrete credential built without a signature argument. -/
def wCard : VoterCard :=
  VoterCard.create ⟨List.replicate 32 1⟩ ⟨List.replicate 32 2⟩ 5 none

/-- A concrete ballot ("PROP", 3 payload bytes, sequence 3) built
without a signature argument. -/
def wBallot : BallotData :=
  BallotData.create [80, 82, 79, 80] [9, 9, 9] wCard 3 none

/-- A concrete credential shared by the two hash-colliding ballots. -/
def exCard : VoterCard :=
  VoterCard.create ⟨List.replicate 32 3⟩ ⟨List.replicate 32 4⟩ 11 none

/-- Ballot with proposal-id bytes "AB" and ballot byte `0x43`. -/
def exBallotAB : BallotData := BallotData.create [65, 66] [67] exCard 1 none

/-- Ballot with proposal-id byte "A" and ballot bytes `0x42 0x43`:
one byte moved across the unprefixed proposal-id/ballot boundary. -/
def exBallotA : BallotData := BallotData.create [65] [66, 67] exCard 1 none

/-- A credential sitting in the heap of the reference-semantics model. -/
def exCardHeap0 : VoterCard :=
  ⟨⟨List.replicate 32 0⟩, ⟨List.replicate 32 0⟩, 0, ⟨List.replicate 64 0⟩⟩

/-- The credential after a mutation of its `expires` field. -/
def exCardHeap1 : VoterCard :=
  ⟨⟨List.replicate 32 0⟩, ⟨List.replicate 32 0⟩, 7, ⟨List.replicate 64 0⟩⟩

/-- A one-cell heap holding the shared credential. -/
def exHeap : List VoterCard := [exCardHeap0]

/-- First ballot record constructed from the credential at heap cell 0. -/
def exRef1 : BallotDataRef := BallotDataRef.create [65] [] 0 0 none

/-- Second ballot record constructed from the same credential. -/
def exRef2 : BallotDataRef := BallotDataRef.create [66] [] 0 1 none

theorem toLE_length (w v : Nat) : (toLE w v).length = w := by
  induction w generalizing v with
  | zero => rfl
  | succ w ih => simp [toLE, ih]

theorem fromLE_toLE (w v : Nat) : fromLE (toLE w v) = v % 2 ^ (8 * w) := by
  induction w generalizing v with
  | zero => simp [toLE, fromLE, Nat.mod_one]
  | succ w ih =>
      have hpow : (2 : Nat) ^ (8 * (w + 1)) = 256 * 2 ^ (8 * w) := by
        rw [Nat.mul_succ, pow_add]; ring
      rw [toLE, fromLE, ih, hpow, Nat.mod_mul]

theorem fromLE_toLE_of_lt {w v : Nat} (h : v < 2 ^ (8 * w)) :
    fromLE (toLE w v) = v := by
  rw [fromLE_toLE]; exact Nat.mod_eq_of_lt h

theorem parsesE_pure {α : Type} (a : α) : ParsesE (pureR a) [] a := by
  constructor
  · intro rest; rfl
  · intro p _ hlen; simp at hlen

theorem parsesE_readBuffer {n : Nat} {bs : List Nat} (h : bs.length = n) :
    ParsesE (readBuffer n) bs bs := by
  subst h
  constructor
  · intro rest
    unfold readBuffer
    rw [if_pos (by simp)]
    rw [List.take_left, List.drop_left]
  · intro p _ hlen
    unfold readBuffer
    rw [if_neg (by omega)]

theorem ParsesE.bind {α β : Type} {m : Rd α} {f : α → Rd β}
    {bs₁ bs₂ : List Nat} {a : α} {b : β}
    (h₁ : ParsesE m bs₁ a) (h₂ : ParsesE (f a) bs₂ b) :
    ParsesE (bindR m f) (bs₁ ++ bs₂) b := by
  constructor
  · intro rest
    rw [List.append_assoc]
    unfold bindR
    rw [h₁.1 (bs₂ ++ rest)]
    exact h₂.1 rest
  · intro p hp hlen
    rcases Nat.lt_trichotomy p.length bs₁.length with hlt | heq | hgt
    · have hp₁ : p <+: bs₁ :=
        List.prefix_of_prefix_length_le hp (List.prefix_append bs₁ bs₂) (le_of_lt hlt)
      unfold bindR
      rw [h₁.2 p hp₁ hlt]
    · have hp₁ : p <+: bs₁ :=
        List.prefix_of_prefix_length_le hp (List.prefix_append bs₁ bs₂) (le_of_eq heq)
      have hpeq : p = bs₁ := hp₁.eq_of_length heq
      subst hpeq
      have hne : 0 < bs₂.length := by
        simp only [List.length_append] at hlen; omega
      unfold bindR
      have hm : m p = .ok (a, []) := by
        have := h₁.1 []
        rwa [List.append_nil] at this
      rw [hm]
      exact h₂.2 [] List.nil_prefix hne
    · have hb₁ : bs₁ <+: p :=
        List.prefix_of_prefix_length_le (List.prefix_append bs₁ bs₂) hp (le_of_lt hgt)
      obtain ⟨p₂, rfl⟩ := hb₁
      obtain ⟨t, ht⟩ := hp
      rw [List.append_assoc] at ht
      have ht₂ : p₂ ++ t = bs₂ := List.append_cancel_left ht
      have hp₂ : p₂ <+: bs₂ := ⟨t, ht₂⟩
      have hlen₂ : p₂.length < bs₂.length := by
        simp only [List.length_append] at hlen; omega
      unfold bindR
      rw [h₁.1 p₂]
      exact h₂.2 p₂ hp₂ hlen₂

theorem varintDecode_nil : varintDecode [] = .error .UnderrunError := rfl

theorem varintDecode_cons (b : Nat) (rest : List Nat) :
    varintDecode (b :: rest) =
      if b < 0xFC then .ok (b, rest)
      else
        match readBuffer (if b = 0xFC then 2 else if b = 0xFD then 4 else 8) rest with
        | .ok (payload, r) => .ok (fromLE payload, r)
        | .error e => .error e := rfl

/-- Strict prefixes of a cons block. -/
theorem prefix_cons_cases {p : List Nat} {b : Nat} {l : List Nat}
    (h : p <+: b :: l) : p = [] ∨ ∃ p₂, p = b :: p₂ ∧ p₂ <+: l := by
  cases p with
  | nil => exact Or.inl rfl
  | cons x p₂ =>
      obtain ⟨t, ht⟩ := h
      injection ht with hx hl
      exact Or.inr ⟨p₂, by rw [hx], ⟨t, hl⟩⟩

/-- A VarInt-encoded value in the unsigned 64-bit range parses back
exactly, and every truncation of its encoding underruns. -/
theorem parsesE_varint {v : Nat} (h : v < 2 ^ 64) :
    ParsesE varintDecode (varintEncode v) v := by
  by_cases h1 : v < 0xFC
  · constructor
    · intro rest
      simp only [varintEncode, if_pos h1, List.cons_append, List.nil_append]
      rw [varintDecode_cons, if_pos h1]
    · intro p hp hlen
      simp only [varintEncode, if_pos h1] at hp hlen
      have : p = [] := by
        simp only [List.length_cons, List.length_nil] at hlen
        exact List.eq_nil_of_length_eq_zero (by omega)
      subst this
      rfl
  · -- marker byte followed by a fixed-width little-endian payload
    have hmark : ∃ mk w, varintEncode v = mk :: toLE w v ∧ ¬ mk < 0xFC ∧
        (if mk = 0xFC then 2 else if mk = 0xFD then 4 else 8) = w ∧ v < 2 ^ (8 * w) := by
      by_cases h2 : v ≤ 0xFFFF
      · exact ⟨0xFC, 2, by simp [varintEncode, h1, h2], by omega, rfl, by omega⟩
      · by_cases h3 : v ≤ 0xFFFFFFFF
        · exact ⟨0xFD, 4, by simp [varintEncode, h1, h2, h3], by omega, rfl, by omega⟩
        · exact ⟨0xFE, 8, by simp [varintEncode, h1, h2, h3], by omega, rfl, by omega⟩
    obtain ⟨mk, w, henc, hmk, hw, hv⟩ := hmark
    rw [henc]
    constructor
    · intro rest
      simp only [List.cons_append]
      rw [varintDecode_cons, if_neg hmk, hw,
        (parsesE_readBuffer (toLE_length w v)).1 rest]
      simp only [fromLE_toLE_of_lt hv]
    · intro p hp hlen
      rcases prefix_cons_cases hp with rfl | ⟨p₂, rfl, hp₂⟩
      · rfl
      · simp only [List.length_cons, Nat.add_lt_add_iff_right] at hlen
        rw [varintDecode_cons, if_neg hmk, hw,
          (parsesE_readBuffer (toLE_length w v)).2 p₂ hp₂ hlen]

theorem voterCard_serialize_bytes (c : VoterCard) (buffer : List Nat) :
    c.serialize buffer =
      buffer ++ (c.validator_address.data ++ (c.address.data ++
        (varintEncode c.expires ++ (c.signature.data ++ [])))) := by
  simp [VoterCard.serialize, List.append_assoc]

/-- A well-formed `VoterCard`'s serialization parses back exactly, and
every truncation of it underruns. -/
theorem parsesE_voterCard {c : VoterCard} (h : c.wellFormed) :
    ParsesE VoterCard.deserialize (c.serialize []) c := by
  obtain ⟨h1, h2, h3, h4⟩ := h
  have hchain : ParsesE VoterCard.deserialize
      (c.validator_address.data ++ (c.address.data ++
        (varintEncode c.expires ++ (c.signature.data ++ [])))) c := by
    refine ParsesE.bind (parsesE_readBuffer h1) ?_
    refine ParsesE.bind (parsesE_readBuffer h2) ?_
    refine ParsesE.bind (parsesE_varint h3) ?_
    refine ParsesE.bind (parsesE_readBuffer h4) ?_
    exact parsesE_pure c
  have heq := voterCard_serialize_bytes c []
  rw [List.nil_append] at heq
  rw [heq]
  exact hchain

theorem ballotData_serialize_bytes (b : BallotData) (buffer : List Nat) :
    b.serialize buffer =
      buffer ++ (varintEncode BallotData.HEADER.length ++ (BallotData.HEADER ++
        (varintEncode b.proposal_id.length ++ (b.proposal_id ++
        (varintEncode b.ballot.length ++ (b.ballot ++
        (b.card.serialize [] ++ (varintEncode b.sequence ++
        (b.signature.data ++ []))))))))) := by
  simp [BallotData.serialize, VoterCard.serialize, List.append_assoc]

/-- A well-formed `BallotData`'s serialization parses back exactly, and
every truncation of it underruns. -/
theorem parsesE_ballotData {b : BallotData} (h : b.wellFormed) :
    ParsesE BallotData.deserialize (b.serialize []) b := by
  obtain ⟨hc, hsig, hseq, hpid, hbal⟩ := h
  have hchain : ParsesE BallotData.deserialize
      (varintEncode BallotData.HEADER.length ++ (BallotData.HEADER ++
        (varintEncode b.proposal_id.length ++ (b.proposal_id ++
        (varintEncode b.ballot.length ++ (b.ballot ++
        (b.card.serialize [] ++ (varintEncode b.sequence ++
        (b.signature.data ++ []))))))))) b := by
    refine ParsesE.bind (parsesE_varint (by norm_num [BallotData.HEADER])) ?_
    refine ParsesE.bind (parsesE_readBuffer rfl) ?_
    have hbody : ParsesE
        (bindR varintDecode fun lenPid =>
         bindR (readBuffer lenPid) fun proposal_id =>
         bindR varintDecode fun lenBallot =>
         bindR (readBuffer lenBallot) fun ballot =>
         bindR VoterCard.deserialize fun card =>
         bindR varintDecode fun sequence =>
         bindR (readBuffer Signature.Width) fun sg =>
         pureR (BallotData.create proposal_id ballot card sequence (some ⟨sg⟩)))
        (varintEncode b.proposal_id.length ++ (b.proposal_id ++
          (varintEncode b.ballot.length ++ (b.ballot ++
          (b.card.serialize [] ++ (varintEncode b.sequence ++
          (b.signature.data ++ []))))))) b := by
      refine ParsesE.bind (parsesE_varint (by omega)) ?_
      refine ParsesE.bind (parsesE_readBuffer rfl) ?_
      refine ParsesE.bind (parsesE_varint (by omega)) ?_
      refine ParsesE.bind (parsesE_readBuffer rfl) ?_
      refine ParsesE.bind (parsesE_voterCard hc) ?_
      refine ParsesE.bind (parsesE_varint (by omega)) ?_
      refine ParsesE.bind (parsesE_readBuffer hsig) ?_
      exact parsesE_pure b
    have hpos : BallotData.HEADER = BallotData.HEADER := rfl
    rw [if_pos hpos]
    exact hbody
  have heq := ballotData_serialize_bytes b []
  rw [List.nil_append] at heq
  rw [heq]
  exact hchain

theorem bindR_ok {α β : Type} {m : Rd α} {f : α → Rd β} {bs rest : List Nat} {a : α}
    (h : m bs = .ok (a, rest)) : bindR m f bs = f a rest := by
  unfold bindR
  rw [h]

/-- Shared helper: `VoterCard.computeHash` appends exactly the spec's
credential hash-input stream. -/
theorem voterCard_computeHash_spec (c : VoterCard) (buffer : List Nat) :
    c.computeHash buffer = buffer ++ voterCredentialHashInputSpec c := by
  simp [VoterCard.computeHash, PublicKey.computeHash, writeJSBigIntLE,
    voterCredentialHashInputSpec, List.append_assoc]

/-- Shared helper: `BallotData.computeHash` appends exactly the spec's
ballot hash-input stream. -/
theorem ballotData_computeHash_spec (b : BallotData) (buffer : List Nat) :
    b.computeHash buffer = buffer ++ ballotRecordHashInputSpec b := by
  simp [BallotData.computeHash, VoterCard.computeHash, PublicKey.computeHash,
    writeJSBigIntLE, ballotRecordHashInputSpec, voterCredentialHashInputSpec,
    List.append_assoc]

/-- **C1.** For every ballot record built from a valid tuple,
deserializing the bytes produced by `serialize` yields a record equal
to the original field-for-field (structural equality covers
`proposal_id`, `ballot`, every embedded credential field, `sequence`
and `signature`), with no bytes left over. -/
theorem C1_roundTrip (b : BallotData) (h : b.wellFormed) :
    BallotData.deserialize (b.serialize []) = .ok (b, []) := by
  have hok := (parsesE_ballotData h).1 []
  rwa [List.append_nil] at hok

/-- Witness for C1 at a concrete record. -/
theorem C1_roundTrip_witness :
    wBallot.wellFormed ∧ BallotData.deserialize (wBallot.serialize []) = .ok (wBallot, []) :=
  ⟨by decide, C1_roundTrip wBallot (by decide)⟩

/-- **C2.** The ballot hash input is exactly: raw proposal-id bytes with
no length prefix, raw ballot bytes with no length prefix, the embedded
credential's own hash-input stream (not its wire serialization), then
`sequence` as a fixed 4-byte little-endian integer; by that very shape
the wire header literal and the signature are not part of the stream. -/
theorem C2_ballotHashInput (b : BallotData) (buffer : List Nat) :
    b.computeHash buffer =
      buffer ++ (b.proposal_id ++ b.ballot ++
        voterCredentialHashInputSpec b.card ++ toLE 4 b.sequence) :=
  ballotData_computeHash_spec b buffer

/-- **C3.** The credential hash input is exactly: the raw bytes of
`validator_address`, the raw bytes of `address`, then `expires` as a
fixed 8-byte little-endian integer — which differs from the
variable-length wire encoding used by `serialize` (shown at 0). -/
theorem C3_credentialHashInput :
    (∀ (c : VoterCard) (buffer : List Nat),
      c.computeHash buffer =
        buffer ++ (c.validator_address.data ++ c.address.data ++ toLE 8 c.expires)) ∧
    toLE 8 0 ≠ varintEncode 0 :=
  ⟨fun c buffer => voterCard_computeHash_spec c buffer, by decide⟩

/-- **C4.** `BallotData.verify` applies the verification primitive to
`card.address` (the one-time voting key, not `validator_address`), the
stored signature, and the hash of the record's hash-input stream; it
is a total `Bool`-valued function of those primitives, so an invalid
signature is a `false` return, never an exception. -/
theorem C4_verifyKeyAndDigest (hashFn : List Nat → List Nat)
    (verifyKey : PublicKey → Signature → List Nat → Bool) (b : BallotData) :
    BallotData.verify hashFn verifyKey b =
      verifyKey b.card.address b.signature (hashFn (ballotRecordHashInputSpec b)) := by
  unfold BallotData.verify
  rw [ballotData_computeHash_spec, List.nil_append]

/-- **C5.** A record constructed with the signature argument omitted
stores a 64-byte all-zero signature, and — for any hash function and
any verification primitive that rejects the all-zero signature, as the
SDK's does — `verify` on such a record returns `false`. -/
theorem C5_defaultSignatureFails (hashFn : List Nat → List Nat)
    (verifyKey : PublicKey → Signature → List Nat → Bool)
    (hzero : ∀ k m, verifyKey k ⟨List.replicate 64 0⟩ m = false)
    (va ad : PublicKey) (expires : Nat)
    (proposal_id ballot : List Nat) (card : VoterCard) (sequence : Nat) :
    (VoterCard.create va ad expires none).signature = ⟨List.replicate 64 0⟩ ∧
    (BallotData.create proposal_id ballot card sequence none).signature =
      ⟨List.replicate 64 0⟩ ∧
    VoterCard.verify hashFn verifyKey (VoterCard.create va ad expires none) = false ∧
    BallotData.verify hashFn verifyKey
      (BallotData.create proposal_id ballot card sequence none) = false := by
  refine ⟨rfl, rfl, ?_, ?_⟩
  · unfold VoterCard.verify
    exact hzero _ _
  · unfold BallotData.verify
    exact hzero _ _

/-- Witness for C5 at concrete records and primitives. -/
theorem C5_defaultSignatureFails_witness :
    wCard.signature = ⟨List.replicate 64 0⟩ ∧
    wBallot.signature = ⟨List.replicate 64 0⟩ ∧
    VoterCard.verify id (fun _ _ _ => false) wCard = false ∧
    BallotData.verify id (fun _ _ _ => false) wBallot = false :=
  C5_defaultSignatureFails id (fun _ _ _ => false) (fun _ _ => rfl)
    ⟨List.replicate 32 1⟩ ⟨List.replicate 32 2⟩ 5 [80, 82, 79, 80] [9, 9, 9] wCard 3

/-- **C6.** Whenever the first VarInt decodes and its length-prefixed
block is present (enough bytes remain) but differs from the 8-byte
ASCII literal "BALLOT  ", `BallotData.deserialize` throws the
FormatError and constructs no record. -/
theorem C6_headerMismatch (buf r1 : List Nat) (len : Nat)
    (h1 : varintDecode buf = .ok (len, r1)) (h2 : len ≤ r1.length)
    (h3 : r1.take len ≠ BallotData.HEADER) :
    BallotData.deserialize buf = .error .FormatError := by
  have hread : readBuffer len r1 = .ok (r1.take len, r1.drop len) := by
    unfold readBuffer
    rw [if_pos h2]
  unfold BallotData.deserialize
  rw [bindR_ok h1]
  rw [bindR_ok hread]
  rw [if_neg h3]
  rfl

/-- Witness for C6: a buffer whose first block is the single byte `A`. -/
theorem C6_headerMismatch_witness :
    varintDecode [1, 65] = .ok (1, [65]) ∧
    BallotData.deserialize [1, 65] = .error .FormatError :=
  ⟨rfl, C6_headerMismatch [1, 65] [65] 1 rfl (by decide) (by decide)⟩

/-- **C7.** Every truncation of a valid serialization — a strict prefix
of the bytes of a well-formed record, i.e. a buffer exhausted before
some field completes — makes `BallotData.deserialize` (respectively
`VoterCard.deserialize`) throw the UnderrunError; no partially
populated record is ever returned. -/
theorem C7_truncationUnderrun (b : BallotData) (c : VoterCard)
    (hb : b.wellFormed) (hc : c.wellFormed) (p q : List Nat)
    (hp : p <+: b.serialize []) (hpl : p.length < (b.serialize []).length)
    (hq : q <+: c.serialize []) (hql : q.length < (c.serialize []).length) :
    BallotData.deserialize p = .error .UnderrunError ∧
      VoterCard.deserialize q = .error .UnderrunError :=
  ⟨(parsesE_ballotData hb).2 p hp hpl, (parsesE_voterCard hc).2 q hq hql⟩

set_option maxRecDepth 4000 in
/-- Witness for C7: the first 10 bytes of the concrete records'
serializations. -/
theorem C7_truncationUnderrun_witness :
    BallotData.deserialize ((wBallot.serialize []).take 10) = .error .UnderrunError ∧
      VoterCard.deserialize ((wCard.serialize []).take 10) = .error .UnderrunError :=
  C7_truncationUnderrun wBallot wCard (by decide) (by decide)
    ((wBallot.serialize []).take 10) ((wCard.serialize []).take 10)
    ( List.take_prefix 10 (wBallot.serialize [])) (by decide)
    ( List.take_prefix 10 (wCard.serialize [])) (by decide)

/-- **C8 counterexample.** Under the reference semantics of the source
language, the two concrete records `exRef1` and `exRef2`, both
constructed from the credential at heap cell 0, hold the same
credential reference, and mutating the referenced credential through
that shared cell changes the credential seen by both records — so
construction does not take a deep copy and two records can alias one
credential. -/
theorem C8_aliasing_counterexample :
    exRef1.cardRef = exRef2.cardRef ∧
    (exHeap.set exRef1.cardRef exCardHeap1).get? exRef2.cardRef = some exCardHeap1 ∧
    exHeap.get? exRef2.cardRef = some exCardHeap0 ∧
    exCardHeap0 ≠ exCardHeap1 := by
  refine ⟨rfl, rfl, rfl, ?_⟩
  decide

/-- **C8 (amended).** The `BallotData` constructor stores the caller's
credential reference unchanged — no copy — so records constructed from
the same credential alias it.  (`VoterCard.deserialize`, by contrast,
builds each credential freshly from the bytes read.) -/
theorem C8_constructorStoresReference (proposal_id ballot : List Nat)
    (cardRef sequence : Nat) (signature : Option Signature) :
    (BallotDataRef.create proposal_id ballot cardRef sequence signature).cardRef =
      cardRef := rfl

/-- **C9.** Moving a byte across the unprefixed proposal-id/ballot
boundary: the concrete ballots `exBallotAB` ("AB", `[0x43]`) and
`exBallotA` ("A", `[0x42, 0x43]`) share card and sequence, differ in
`(proposal_id, ballot)`, yet their hash-input streams are identical —
so for every hash function and verification primitive one signature
validates both. -/
theorem C9_hashInputCollision :
    exBallotAB.computeHash [] = exBallotA.computeHash [] ∧
    (exBallotAB.proposal_id, exBallotAB.ballot) ≠ (exBallotA.proposal_id, exBallotA.ballot) ∧
    exBallotAB.card = exBallotA.card ∧
    exBallotAB.sequence = exBallotA.sequence ∧
    ∀ (hashFn : List Nat → List Nat)
      (verifyKey : PublicKey → Signature → List Nat → Bool) (s : Signature),
      BallotData.verify hashFn verifyKey { exBallotAB with signature := s } =
        BallotData.verify hashFn verifyKey { exBallotA with signature := s } :=
  ⟨by decide, by decide, by decide, rfl, fun _ _ _ => rfl⟩

/-- **C10.** The signature field is excluded from the hash input of both
record types: replacing the signature of any credential or any ballot
record leaves `computeHash` unchanged, so two records differing only in
their signature produce identical hash-input streams. -/
theorem C10_signatureExcludedFromHash :
    (∀ (c : VoterCard) (s : Signature) (buffer : List Nat),
      ({ c with signature := s } : VoterCard).computeHash buffer = c.computeHash buffer) ∧
    (∀ (b : BallotData) (s : Signature) (buffer : List Nat),
      ({ b with signature := s } : BallotData).computeHash buffer = b.computeHash buffer) :=
  ⟨fun _ _ _ => rfl, fun _ _ _ => rfl⟩

end BoaSdk
